import Mathlib

set_option linter.all false

/-! Shallow embedding of the ADITI credit-assessment backend: the Express
handlers of server.js together with the Prisma/PostgreSQL schema declared by
the SQL migrations (foreign keys Assessment→Customer, Message→Assessment,
Document→Assessment, all non-nullable and restrict-on-delete).  Request
handlers become pure functions from a database state and a request to a new
database state and an HTTP response. -/

/-- JSON values, as produced by the JavaScript builtin JSON.parse.  Numbers
keep their source lexeme as a string (no floating point is needed by any
claim). -/
inductive Json where
  | null : Json
  | bool (b : Bool) : Json
  | num (lexeme : String) : Json
  | str (s : String) : Json
  | arr (items : List Json) : Json
  | obj (fields : List (String × Json)) : Json
deriving Repr

/-- Customer row (migration: table Customer, plus the lastAccessed timestamp
column that server.js updates on each assessment submission).  Only the
columns the verified handlers touch are modelled; timestamps are abstract
ticks. -/
structure Customer where
  id : Nat
  lastAccessed : Option Nat
deriving Repr, DecidableEq

/-- Assessment row (migration: table Assessment, plus the breakdown and
language columns used by server.js).  answers and breakdown are opaque JSON
payloads stored verbatim. -/
structure Assessment where
  id : Nat
  customerId : Nat
  score : Int
  answers : String
  breakdown : Option String
  status : String
  language : String
  createdAt : Nat
deriving Repr, DecidableEq

/-- Message row (migration: table Message). -/
structure Message where
  id : Nat
  assessmentId : Nat
  sender : String
  text : String
  createdAt : Nat
deriving Repr, DecidableEq

/-- Document row (migration: table Document, plus the originalName and
docType columns used by server.js). -/
structure Document where
  id : Nat
  fileName : String
  originalName : String
  filePath : String
  assessmentId : Nat
  docType : Option String
  uploadDate : Nat
deriving Repr, DecidableEq

/-- The persistent store: the four tables the verified handlers touch,
autoincrement counters for the SERIAL primary keys, and the current clock
tick (the value new Date() yields during the request). -/
structure DB where
  customers : List Customer
  assessments : List Assessment
  messages : List Message
  documents : List Document
  nextAssessmentId : Nat
  nextMessageId : Nat
  nextDocumentId : Nat
  now : Nat
deriving Repr, DecidableEq

/-- Errors raised by the persistence layer (Prisma): a foreign-key
constraint violation (P2003) and a record-to-update-not-found error
(P2025). -/
inductive DbError where
  | fkViolation : DbError
  | recordNotFound : DbError
deriving Repr, DecidableEq

/-- The persistence layer's human-readable error message (modelled: the
claims only depend on it being neither empty nor the string of another error
kind). -/
def dbErrorMessage : DbError → String
  | .fkViolation => "Foreign key constraint violated on the constraint: Assessment_customerId_fkey"
  | .recordNotFound => "An operation failed because it depends on one or more records that were required but not found."

/-- Body of an HTTP response, one constructor per res.json shape the
verified handlers produce. -/
inductive RespBody where
  | errMsg (error : String) : RespBody
  | submitOk (assessment : Assessment) : RespBody
  | statusOk (assessment : Assessment) : RespBody
  | uploadOk (document : Document) : RespBody
  | messagesOk (messages : List Message) : RespBody
  | questionsOk (payload : Json) : RespBody
deriving Repr

/-- An HTTP response: status code and JSON body. -/
structure HttpResponse where
  status : Nat
  body : RespBody
deriving Repr

/-- The inline score→status mapping of POST /api/assessment/submit
(server.js: if score >= 700 Approved, else if score >= 500 Manual Review,
else Rejected).  The spec calls this function decide; ManualReview is the
spec-level name of the stored string value Manual Review. -/
def decideStatus (score : Int) : String :=
  if score ≥ 700 then "Approved"
  else if score ≥ 500 then "Manual Review"
  else "Rejected"

/-- prisma.assessment.create: the migration declares the non-nullable
restrict-on-delete foreign key Assessment.customerId → Customer.id, so the
insert is rejected with a foreign-key error whenever no customer row with
that id exists; there is no explicit existence check in the handler. -/
def assessmentCreate (db : DB) (cid : Nat) (score : Int) (answers : String)
    (breakdown : Option String) (status : String) (language : String) :
    Except DbError (DB × Assessment) :=
  if db.customers.any (fun c => c.id == cid) then
    let a : Assessment :=
      { id := db.nextAssessmentId, customerId := cid, score := score,
        answers := answers, breakdown := breakdown, status := status,
        language := language, createdAt := db.now }
    .ok ({ db with assessments := db.assessments ++ [a],
                   nextAssessmentId := db.nextAssessmentId + 1 }, a)
  else
    .error .fkViolation

/-- prisma.customer.update setting lastAccessed to new Date(): fails with
P2025 when the row does not exist. -/
def customerTouch (db : DB) (cid : Nat) : Except DbError DB :=
  if db.customers.any (fun c => c.id == cid) then
    .ok { db with customers :=
            db.customers.map (fun c => if c.id == cid then { c with lastAccessed := some db.now } else c) }
  else
    .error .recordNotFound

/-- JavaScript `x || d` for an optional string field of a JSON body: the
default is taken when the field is absent or the empty string (both are
falsy). -/
def jsOrDefault (v : Option String) (d : String) : String :=
  match v with
  | none => d
  | some s => if s = "" then d else s

/-- Request body of POST /api/assessment/submit. -/
structure SubmitReq where
  customerId : Nat
  score : Int
  answers : String
  breakdown : Option String
  language : Option String
deriving Repr

/-- POST /api/assessment/submit: compute the status from the score, create
the Assessment row, then — as a second, separate persistence operation, with
no surrounding transaction — update the owning customer's lastAccessed
timestamp.  Any thrown persistence error is caught and reported as a
generic 500 response embedding the error message. -/
def submitHandler (db : DB) (r : SubmitReq) : DB × HttpResponse :=
  let status := decideStatus r.score
  match assessmentCreate db r.customerId r.score r.answers r.breakdown status
      (jsOrDefault r.language "en") with
  | .error e =>
      (db, { status := 500, body := .errMsg ("Failed to submit assessment: " ++ dbErrorMessage e) })
  | .ok (db1, a) =>
      match customerTouch db1 r.customerId with
      | .error e =>
          (db1, { status := 500, body := .errMsg ("Failed to submit assessment: " ++ dbErrorMessage e) })
      | .ok db2 =>
          (db2, { status := 201, body := .submitOk a })

/-- The sequence of database states a concurrent reader can observe during
one run of POST /api/assessment/submit: the state before the handler runs,
the state after the awaited prisma.assessment.create resolves, and the state
after the awaited prisma.customer.update resolves.  The two writes are
separate awaited operations with no transaction around them, so the state
between them is a real observable state of the store. -/
def submitTrace (db : DB) (r : SubmitReq) : List DB :=
  let status := decideStatus r.score
  match assessmentCreate db r.customerId r.score r.answers r.breakdown status
      (jsOrDefault r.language "en") with
  | .error _ => [db]
  | .ok (db1, _) =>
      match customerTouch db1 r.customerId with
      | .error _ => [db, db1]
      | .ok db2 => [db, db1, db2]

/-- prisma.message.create: the migration declares the non-nullable
restrict-on-delete foreign key Message.assessmentId → Assessment.id. -/
def messageCreate (db : DB) (aid : Nat) (sender : String) (text : String) :
    Except DbError (DB × Message) :=
  if db.assessments.any (fun a => a.id == aid) then
    let m : Message :=
      { id := db.nextMessageId, assessmentId := aid, sender := sender,
        text := text, createdAt := db.now }
    .ok ({ db with messages := db.messages ++ [m],
                   nextMessageId := db.nextMessageId + 1 }, m)
  else
    .error .fkViolation

/-- prisma.document.create: the migration declares the non-nullable
restrict-on-delete foreign key Document.assessmentId → Assessment.id. -/
def documentCreate (db : DB) (aid : Nat) (fileName : String)
    (originalName : String) (filePath : String) (docType : Option String) :
    Except DbError (DB × Document) :=
  if db.assessments.any (fun a => a.id == aid) then
    let d : Document :=
      { id := db.nextDocumentId, fileName := fileName,
        originalName := originalName, filePath := filePath,
        assessmentId := aid, docType := docType, uploadDate := db.now }
    .ok ({ db with documents := db.documents ++ [d],
                   nextDocumentId := db.nextDocumentId + 1 }, d)
  else
    .error .fkViolation

/-- prisma.assessment.update with data containing only the status field:
overwrites that single column of the identified row, fails with P2025 when
no row has that id.  The new status string is stored verbatim; nothing
compares it against the three-value status enumeration. -/
def assessmentUpdateStatus (db : DB) (aid : Nat) (status : String) :
    Except DbError (DB × Assessment) :=
  match db.assessments.find? (fun a => a.id == aid) with
  | none => .error .recordNotFound
  | some a =>
      .ok ({ db with assessments :=
               db.assessments.map (fun x => if x.id == aid then { x with status := status } else x) },
           { a with status := status })

/-- PATCH /api/assessments/:id/status. -/
def updateStatusHandler (db : DB) (aid : Nat) (status : String) : DB × HttpResponse :=
  match assessmentUpdateStatus db aid status with
  | .ok (db2, a) => (db2, { status := 200, body := .statusOk a })
  | .error _ => (db, { status := 500, body := .errMsg "Failed to update status." })

/-- The multer file object attached to the request: the stored (unique)
filename and the user-supplied original filename. -/
structure UploadedFile where
  filename : String
  originalname : String
deriving Repr, DecidableEq

/-- POST /api/documents/upload: rejects the request with a 400 before any
write when the file or the assessment id is absent; otherwise creates the
Document row and then a System Message announcing the upload, whose text
embeds the original filename and the document type (with the fallback
"unspecified type" when docType is falsy). -/
def uploadHandler (db : DB) (file : Option UploadedFile)
    (assessmentId : Option Nat) (docType : Option String) : DB × HttpResponse :=
  match file, assessmentId with
  | some f, some aid =>
      match documentCreate db aid f.filename f.originalname
          ("uploads/" ++ f.filename) docType with
      | .error _ => (db, { status := 500, body := .errMsg "Failed to upload document." })
      | .ok (db1, d) =>
          let messageText := "Customer uploaded a document: \"" ++ f.originalname
            ++ "\" (" ++ jsOrDefault docType "unspecified type" ++ ")."
          match messageCreate db1 aid "System" messageText with
          | .error _ => (db1, { status := 500, body := .errMsg "Failed to upload document." })
          | .ok (db2, _) => (db2, { status := 201, body := .uploadOk d })
  | _, _ => (db, { status := 400, body := .errMsg "No file or assessment ID provided." })

/-- Ordering relation used by the message read: ascending createdAt. -/
def msgLe (m1 m2 : Message) : Prop := m1.createdAt ≤ m2.createdAt

instance : DecidableRel msgLe := fun m1 m2 => Nat.decLe m1.createdAt m2.createdAt

instance : IsTotal Message msgLe := ⟨fun a b => Nat.le_total a.createdAt b.createdAt⟩

instance : IsTrans Message msgLe := ⟨fun _ _ _ h1 h2 => Nat.le_trans h1 h2⟩

/-- prisma.message.findMany with a where filter on assessmentId and
orderBy createdAt ascending: the rows of the table matching the filter,
sorted (stably) by creation timestamp. -/
def getMessages (db : DB) (aid : Nat) : List Message :=
  List.insertionSort msgLe (db.messages.filter (fun m => m.assessmentId == aid))

/-- GET /api/assessments/:id/messages: always a 200 carrying the (possibly
empty) list of messages. -/
def getMessagesHandler (db : DB) (aid : Nat) : HttpResponse :=
  { status := 200, body := .messagesOk (getMessages db aid) }

/-- JSON.stringify of a list of strings. -/
def jsonStringifyStringList (xs : List String) : String :=
  "[" ++ String.intercalate "," (xs.map (fun s => "\"" ++ s ++ "\"")) ++ "]"

/-- The serialized document-request payload built by
POST /api/assessments/:id/request-docs. -/
def docRequestText (docTypes : List String) : String :=
  "\x7b\"type\":\"document_request\",\"docTypes\":" ++ jsonStringifyStringList docTypes ++ "\x7d"

/-- POST /api/assessments/:id/request-docs: appends a Bank Manager message
carrying the structured document-request payload. -/
def requestDocsHandler (db : DB) (aid : Nat) (docTypes : List String) : DB × HttpResponse :=
  match messageCreate db aid "Bank Manager" (docRequestText docTypes) with
  | .ok (db2, _) => (db2, { status := 201, body := .errMsg "Document request sent successfully." })
  | .error _ => (db, { status := 500, body := .errMsg "Failed to send document request." })

/-- POST /api/assessments/:id/message: appends a plain message with sender
and text as given. -/
def postMessageHandler (db : DB) (aid : Nat) (sender : String) (text : String) :
    DB × HttpResponse :=
  match messageCreate db aid sender text with
  | .ok (db2, _) => (db2, { status := 201, body := .errMsg "Message sent successfully." })
  | .error _ => (db, { status := 500, body := .errMsg "Failed to send message." })

/-- The opening-brace character, written via its code point. -/
def lbrace : Char := Char.ofNat 123

/-- The closing-brace character, written via its code point. -/
def rbrace : Char := Char.ofNat 125

/-- Index of the first occurrence of a character in a character list
(JavaScript String.prototype.indexOf, with absence as none instead of
-1). -/
def jsIndexOfAux (c : Char) : List Char → Option Nat
  | [] => none
  | x :: xs => if x = c then some 0 else (jsIndexOfAux c xs).map (· + 1)

/-- JavaScript text.indexOf(c): position of the first occurrence. -/
def jsIndexOf (s : String) (c : Char) : Option Nat :=
  jsIndexOfAux c s.data

/-- JavaScript text.lastIndexOf(c): position of the last occurrence,
computed as the first occurrence in the reversed character list. -/
def jsLastIndexOf (s : String) (c : Char) : Option Nat :=
  match jsIndexOfAux c s.data.reverse with
  | none => none
  | some i => some (s.data.length - 1 - i)

/-- JavaScript text.substring(a, b): both indices are clamped to the string
length and swapped when the start exceeds the end, then the characters from
the lower to just below the upper index are returned. -/
def jsSubstring (s : String) (a b : Nat) : String :=
  let len := s.data.length
  let a2 := min a len
  let b2 := min b len
  let lo := min a2 b2
  let hi := max a2 b2
  String.mk ((s.data.drop lo).take (hi - lo))

/-- A JavaScript runtime error value: the optional numeric status carried by
the external-service client's errors, and the message (the default
Error.prototype.toString is "Error: " followed by the message). -/
structure JsError where
  status : Option Nat
  message : String
deriving Repr, DecidableEq

/-- Default JavaScript Error.prototype.toString. -/
def jsErrorToString (e : JsError) : String := "Error: " ++ e.message

/-- The sanitizer of POST /api/generate-questions (server.js): find the
first occurrence of the opening bracket and the last occurrence of the
closing bracket; if either is absent throw an Error; otherwise return
text.substring(jsonStart, jsonEnd + 1). -/
def extractJsonArray (text : String) : Except JsError String :=
  match jsIndexOf text '[', jsLastIndexOf text ']' with
  | some jsonStart, some jsonEnd => .ok (jsSubstring text jsonStart (jsonEnd + 1))
  | _, _ => .error { status := none, message := "AI response did not contain a valid JSON array." }

/-- Skip JSON whitespace. -/
def skipWs : List Char → List Char
  | c :: cs => if c = ' ' ∨ c = '\n' ∨ c = '\t' ∨ c = '\r' then skipWs cs else c :: cs
  | [] => []

/-- Translate a single-character escape of a JSON string literal; escapes
outside the JSON grammar are rejected, as the builtin JSON.parse rejects
them (the four-hex-digit u escape is handled by the caller). -/
def escChar (c : Char) : Option Char :=
  if c = '"' then some '"'
  else if c = '\\' then some '\\'
  else if c = '/' then some '/'
  else if c = 'b' then some (Char.ofNat 8)
  else if c = 'f' then some (Char.ofNat 12)
  else if c = 'n' then some '\n'
  else if c = 'r' then some '\r'
  else if c = 't' then some '\t'
  else none

/-- Value of one hexadecimal digit. -/
def hexVal (c : Char) : Option Nat :=
  if c.isDigit then some (c.toNat - 48)
  else if 'a' ≤ c ∧ c ≤ 'f' then some (c.toNat - 87)
  else if 'A' ≤ c ∧ c ≤ 'F' then some (c.toNat - 55)
  else none

/-- Parse the remainder of a JSON string literal (after the opening quote),
returning the content and the rest of the input: closing quote ends it, a
backslash must start a valid JSON escape (u with exactly four hex digits, or
one of the single-character escapes), and raw control characters are
rejected, as the builtin JSON.parse rejects them. -/
def parseStrChars : List Char → List Char → Option (String × List Char)
  | [], _ => none
  | '"' :: cs, acc => some (String.mk acc.reverse, cs)
  | '\\' :: 'u' :: a :: b :: c :: d :: cs, acc =>
      match hexVal a, hexVal b, hexVal c, hexVal d with
      | some ha, some hb, some hc, some hd =>
          parseStrChars cs (Char.ofNat (((ha * 16 + hb) * 16 + hc) * 16 + hd) :: acc)
      | _, _, _, _ => none
  | '\\' :: e :: cs, acc =>
      match escChar e with
      | some ec => parseStrChars cs (ec :: acc)
      | none => none
  | '\\' :: [], _ => none
  | c :: cs, acc => if c.toNat < 32 then none else parseStrChars cs (c :: acc)

/-- Split off a (possibly empty) run of decimal digits. -/
def spanDigits (l : List Char) : List Char × List Char :=
  (l.takeWhile Char.isDigit, l.dropWhile Char.isDigit)

/-- Parse the optional exponent part of a JSON number, given the lexeme so
far. -/
def parseExp (acc : List Char) (l : List Char) : Option (Json × List Char) :=
  match l with
  | c :: l1 =>
      if c = 'e' ∨ c = 'E' then
        let sgn := match l1 with
          | '+' :: _ => ['+']
          | '-' :: _ => ['-']
          | _ => []
        let l2 := l1.drop sgn.length
        let (es, l3) := spanDigits l2
        if es.isEmpty then none
        else some (Json.num (String.mk (acc ++ c :: (sgn ++ es))), l3)
      else some (Json.num (String.mk acc), l)
  | [] => some (Json.num (String.mk acc), [])

/-- Parse a JSON number with the grammar the builtin JSON.parse accepts: an
optional minus sign, an integer part with no leading zero, an optional
fraction with at least one digit, an optional signed exponent with at least
one digit; a leading plus sign, a bare minus, and other malformed lexemes
are rejected. -/
def parseNum (l : List Char) : Option (Json × List Char) :=
  let neg : List Char := match l with
    | '-' :: _ => ['-']
    | _ => []
  let l1 := l.drop neg.length
  match l1 with
  | c :: _ =>
      if c.isDigit then
        let (ds, l2) := spanDigits l1
        if 1 < ds.length ∧ ds.head? = some '0' then none
        else
          match l2 with
          | '.' :: l3 =>
              let (fs, l4) := spanDigits l3
              if fs.isEmpty then none
              else parseExp (neg ++ ds ++ '.' :: fs) l4
          | _ => parseExp (neg ++ ds) l2
      else none
  | [] => none

/-- Expect a literal suffix (the tail of null, true, false). -/
def expectLit : List Char → List Char → Option (List Char)
  | [], rest => some rest
  | e :: es, c :: cs => if c = e then expectLit es cs else none
  | _ :: _, [] => none

mutual

/-- Modelled from the builtin JSON.parse: recursive-descent parse of one
JSON value, fuel-bounded for termination; returns the value and the
remaining input, or none on malformed input. -/
def parseVal : Nat → List Char → Option (Json × List Char)
  | 0, _ => none
  | fuel + 1, input =>
    match skipWs input with
    | [] => none
    | c :: cs =>
      if c = '"' then (parseStrChars cs []).map (fun p => (Json.str p.1, p.2))
      else if c = lbrace then parseObjItems fuel cs []
      else if c = '[' then parseArrItems fuel cs []
      else if c = 'n' then (expectLit ['u', 'l', 'l'] cs).map (fun r => (Json.null, r))
      else if c = 't' then (expectLit ['r', 'u', 'e'] cs).map (fun r => (Json.bool true, r))
      else if c = 'f' then (expectLit ['a', 'l', 's', 'e'] cs).map (fun r => (Json.bool false, r))
      else parseNum (c :: cs)

/-- Items of a JSON array after the opening bracket. -/
def parseArrItems : Nat → List Char → List Json → Option (Json × List Char)
  | 0, _, _ => none
  | fuel + 1, input, acc =>
    match skipWs input with
    | ']' :: rest => if acc.isEmpty then some (Json.arr [], rest) else none
    | other =>
      match parseVal fuel other with
      | none => none
      | some (v, rest) =>
        match skipWs rest with
        | ',' :: rest2 => parseArrItems fuel rest2 (acc ++ [v])
        | ']' :: rest2 => some (Json.arr (acc ++ [v]), rest2)
        | _ => none

/-- Fields of a JSON object after the opening brace. -/
def parseObjItems : Nat → List Char → List (String × Json) → Option (Json × List Char)
  | 0, _, _ => none
  | fuel + 1, input, acc =>
    match skipWs input with
    | [] => none
    | c :: rest =>
      if c = rbrace then (if acc.isEmpty then some (Json.obj [], rest) else none)
      else if c = '"' then
        match parseStrChars rest [] with
        | none => none
        | some (key, rest2) =>
          match skipWs rest2 with
          | ':' :: rest3 =>
            match parseVal fuel rest3 with
            | none => none
            | some (v, rest4) =>
              match skipWs rest4 with
              | ',' :: rest5 => parseObjItems fuel rest5 (acc ++ [(key, v)])
              | c2 :: rest5 => if c2 = rbrace then some (Json.obj (acc ++ [(key, v)]), rest5) else none
              | [] => none
          | _ => none
      else none

end

/-- Modelled from the builtin JSON.parse: parse a complete JSON document,
requiring only whitespace after the value. -/
def jsonParse (s : String) : Option Json :=
  match parseVal (2 * s.data.length + 2) s.data with
  | some (j, rest) => if (skipWs rest).isEmpty then some j else none
  | none => none

/-- JavaScript hay.includes(needle): substring containment. -/
def strIncludes (hay needle : String) : Bool :=
  hay.data.tails.any (fun t => needle.data.isPrefixOf t)

/-- handleGeminiError (server.js): an error is a rate-limit error when its
status is 429 or its toString contains "429". -/
def isRateLimitError (e : JsError) : Bool :=
  e.status == some 429 || strIncludes (jsErrorToString e) "429"

/-- JavaScript replace with a global plain-text pattern (the source's
context.replace of the regular expression matching "ing" globally): scan
left to right, replacing every non-overlapping occurrence.  Fuel-bounded by
the input length (each step consumes at least one character). -/
def jsReplaceAllAux (needle repl : List Char) : Nat → List Char → List Char
  | 0, l => l
  | _ + 1, [] => []
  | fuel + 1, c :: cs =>
    if needle ≠ [] ∧ needle.isPrefixOf (c :: cs) then
      repl ++ jsReplaceAllAux needle repl fuel ((c :: cs).drop needle.length)
    else
      c :: jsReplaceAllAux needle repl fuel cs

/-- JavaScript s.replace(pattern-g, repl) for a plain-text pattern. -/
def jsReplaceAll (s needle repl : String) : String :=
  String.mk (jsReplaceAllAux needle.data repl.data s.data.length s.data)

/-- handleGeminiError (server.js): classify and answer. -/
def handleGeminiError (e : JsError) (context : String) : HttpResponse :=
  if isRateLimitError e then
    { status := 429,
      body := .errMsg "Could not complete request due to high traffic (API rate limit exceeded). Please try again later." }
  else
    { status := 500, body := .errMsg ("Failed to " ++ jsReplaceAll context "ing" "e") }

/-- Outcome of one call to the external completion service: the raw
response text, or a thrown error. -/
inductive UpstreamResult where
  | ok (text : String) : UpstreamResult
  | err (e : JsError) : UpstreamResult
deriving Repr, DecidableEq

/-- Field write on a JSON object (the object case of the forEach property
assignment): overwrite the existing entry in place, or append one.
Non-objects are passed through unchanged; jsSetId below decides which
receivers reach this function and which throw. -/
def setField (j : Json) (k : String) (v : Json) : Json :=
  match j with
  | .obj fs =>
      if fs.any (fun p => p.1 == k) then
        .obj (fs.map (fun p => if p.1 == k then (k, v) else p))
      else
        .obj (fs ++ [(k, v)])
  | other => other

/-- Read a field of a JSON object. -/
def getField (j : Json) (k : String) : Option Json :=
  match j with
  | .obj fs => (fs.find? (fun p => p.1 == k)).map (fun p => p.2)
  | _ => none

/-- JavaScript property assignment q.id = v as executed by the forEach of
POST /api/generate-questions: on an object it writes the id field; on a
null element it throws a TypeError even in sloppy mode (none — the handler
catch turns it into the generic 500); on a primitive the sloppy-mode
assignment is silently ignored, and on a nested array the added property is
dropped again by the JSON serialization of res.json, so both leave the
serialized element unchanged. -/
def jsSetId (v : Json) : Json → Option Json
  | .null => none
  | .obj fs => some (setField (.obj fs) "id" v)
  | other => some other

/-- The forEach of POST /api/generate-questions, carrying the running
index: item at index i gets id "dynamic_question_" ++ (i + 1); a thrown
TypeError (null element) aborts the loop. -/
def renumberFrom (i : Nat) : List Json → Option (List Json)
  | [] => some []
  | q :: qs =>
      match jsSetId (.str ("dynamic_question_" ++ toString (i + 1))) q with
      | none => none
      | some q2 =>
          match renumberFrom (i + 1) qs with
          | none => none
          | some ys => some (q2 :: ys)

/-- jsonResponse.forEach((q, index) => q.id = `dynamic_question_N`). -/
def renumberIds (xs : List Json) : Option (List Json) := renumberFrom 0 xs

/-- POST /api/generate-questions, from the point the external completion
service is invoked.  The handler makes exactly one call to the service
(consulting only the first element of the call oracle — there is no retry
loop); on a thrown service error it answers via handleGeminiError, on a
response lacking a bracket it throws and catches the sanitizer error
(again answered via handleGeminiError), on unparsable extracted text the
JSON.parse exception takes the same path, and on success it renumbers the
item ids and answers 200. -/
def generateQuestions (upstream : Nat → UpstreamResult) : HttpResponse :=
  match upstream 0 with
  | .err e => handleGeminiError e "generating dynamic questions"
  | .ok text =>
      match extractJsonArray text with
      | .error e => handleGeminiError e "generating dynamic questions"
      | .ok cleanedText =>
          match jsonParse cleanedText with
          | none =>
              handleGeminiError { status := none, message := "Unexpected token in JSON" }
                "generating dynamic questions"
          | some (.arr xs) =>
              match renumberIds xs with
              | none =>
                  handleGeminiError { status := none, message := "Cannot set properties of null" }
                    "generating dynamic questions"
              | some ys => { status := 200, body := .questionsOk (.arr ys) }
          | some _ =>
              handleGeminiError { status := none, message := "jsonResponse.forEach is not a function" }
                "generating dynamic questions"

/-! Helper lemmas and concrete database fixtures. -/

/-- The 429 response handleGeminiError produces for quota errors. -/
def rateLimitedResp : HttpResponse :=
  { status := 429,
    body := .errMsg "Could not complete request due to high traffic (API rate limit exceeded). Please try again later." }

/-- The generic 500 response POST /api/generate-questions produces for any
other failure. -/
def questionsFailedResp : HttpResponse :=
  { status := 500, body := .errMsg "Failed to generate dynamic questions" }

/-- The sanitizer as the claim words it: the inclusive substring of the raw
text from the position of the first opening bracket to the position of the
last closing bracket (empty when that last position is before the first),
failing when either bracket is absent.  Spec-side definition, for comparison
with extractJsonArray, which embeds the code. -/
def specExtractJsonArray (raw : String) : Option String :=
  match jsIndexOf raw '[', jsLastIndexOf raw ']' with
  | some i, some j => some (String.mk ((raw.data.drop i).take (j + 1 - i)))
  | _, _ => none

/-- Concrete store with one customer (id 1, never accessed) and nothing
else. -/
def dbOne : DB :=
  { customers := [{ id := 1, lastAccessed := none }],
    assessments := [], messages := [], documents := [],
    nextAssessmentId := 1, nextMessageId := 1, nextDocumentId := 1, now := 10 }

/-- Concrete store with no customers at all. -/
def dbEmpty : DB :=
  { customers := [], assessments := [], messages := [], documents := [],
    nextAssessmentId := 1, nextMessageId := 1, nextDocumentId := 1, now := 10 }

/-- Concrete store with one customer and one pending assessment (id 1). -/
def dbAssess : DB :=
  { customers := [{ id := 1, lastAccessed := some 3 }],
    assessments := [{ id := 1, customerId := 1, score := 640, answers := "\x7b\x7d",
                      breakdown := none, status := "Manual Review", language := "en",
                      createdAt := 4 }],
    messages := [], documents := [],
    nextAssessmentId := 2, nextMessageId := 1, nextDocumentId := 1, now := 10 }

/-- Concrete submit request for customer 1 with score 720. -/
def reqOne : SubmitReq :=
  { customerId := 1, score := 720, answers := "\x7b\x7d", breakdown := none, language := none }

/-- Successful-path equation for POST /api/assessment/submit: when the
customer exists, the handler answers 201 and the final store carries the new
assessment (status computed by decideStatus) and the touched customer. -/
theorem submitHandler_ok (db : DB) (r : SubmitReq)
    (h : db.customers.any (fun c => c.id == r.customerId) = true) :
    submitHandler db r =
      ({ db with
           customers := db.customers.map (fun c =>
             if c.id == r.customerId then { c with lastAccessed := some db.now } else c),
           assessments := db.assessments ++
             [{ id := db.nextAssessmentId, customerId := r.customerId, score := r.score,
                answers := r.answers, breakdown := r.breakdown,
                status := decideStatus r.score, language := jsOrDefault r.language "en",
                createdAt := db.now }],
           nextAssessmentId := db.nextAssessmentId + 1 },
       { status := 201,
         body := .submitOk
           { id := db.nextAssessmentId, customerId := r.customerId, score := r.score,
             answers := r.answers, breakdown := r.breakdown,
             status := decideStatus r.score, language := jsOrDefault r.language "en",
             createdAt := db.now } }) := by
  simp [submitHandler, assessmentCreate, customerTouch, h]

/-- C1: the status persisted by assessment submission is a pure function of
the integer score with the thresholds of server.js: at least 700 yields
Approved, at least 500 but below 700 yields Manual Review (the spec's
ManualReview), below 500 yields Rejected; in particular at scores 700, 699,
500 and 499; and every successful submit stores exactly decideStatus of the
request's score on the created assessment. -/
theorem decideStatus_thresholds_and_persisted :
    (∀ s : Int, 700 ≤ s → decideStatus s = "Approved") ∧
    (∀ s : Int, 500 ≤ s → s < 700 → decideStatus s = "Manual Review") ∧
    (∀ s : Int, s < 500 → decideStatus s = "Rejected") ∧
    decideStatus 700 = "Approved" ∧ decideStatus 699 = "Manual Review" ∧
    decideStatus 500 = "Manual Review" ∧ decideStatus 499 = "Rejected" ∧
    (∀ db r, db.customers.any (fun c => c.id == r.customerId) = true →
      ∃ a, (submitHandler db r).2.body = .submitOk a ∧
        a.status = decideStatus r.score ∧ a ∈ (submitHandler db r).1.assessments) := by
  refine ⟨?_, ?_, ?_, rfl, rfl, rfl, rfl, ?_⟩
  · intro s hs
    simp [decideStatus, hs]
  · intro s h1 h2
    have : ¬ (700 ≤ s) := by omega
    simp [decideStatus, this, h1]
  · intro s hs
    have h1 : ¬ (700 ≤ s) := by omega
    have h2 : ¬ (500 ≤ s) := by omega
    simp [decideStatus, h1, h2]
  · intro db r h
    rw [submitHandler_ok db r h]
    exact ⟨_, rfl, rfl, by simp⟩

/-- Witness for C1 at concrete scores and a concrete store. -/
theorem decideStatus_thresholds_witness :
    decideStatus 800 = "Approved" ∧ decideStatus 650 = "Manual Review" ∧
    decideStatus (-50) = "Rejected" ∧
    (∃ a, (submitHandler dbOne reqOne).2.body = .submitOk a ∧
      a.status = decideStatus reqOne.score ∧ a ∈ (submitHandler dbOne reqOne).1.assessments) :=
  ⟨decideStatus_thresholds_and_persisted.1 800 (by decide),
   decideStatus_thresholds_and_persisted.2.1 650 (by decide) (by decide),
   decideStatus_thresholds_and_persisted.2.2.1 (-50) (by decide),
   decideStatus_thresholds_and_persisted.2.2.2.2.2.2.2 dbOne reqOne (by decide)⟩

/-- C2 (code behavior at the failing input): submitting for a customer id
with no matching customer row performs no explicit existence check — the
insert is rejected by the foreign-key constraint, the caught error is
reported as a generic 500 (not a 404 NotFound), and no Assessment row and no
customer last-access update is persisted (the store is unchanged and the
trace has no intermediate state). -/
theorem submit_nonexistent_customer (db : DB) (r : SubmitReq)
    (h : db.customers.any (fun c => c.id == r.customerId) = false) :
    submitHandler db r =
      (db, { status := 500,
             body := .errMsg ("Failed to submit assessment: " ++ dbErrorMessage .fkViolation) }) ∧
    (submitHandler db r).2.status ≠ 404 ∧
    submitTrace db r = [db] := by
  refine ⟨?_, ?_, ?_⟩ <;> simp [submitHandler, submitTrace, assessmentCreate, h]

/-- Witness for C2: the concrete empty store. -/
theorem submit_nonexistent_customer_witness :
    submitHandler dbEmpty reqOne =
      (dbEmpty, { status := 500,
                  body := .errMsg ("Failed to submit assessment: " ++ dbErrorMessage .fkViolation) }) ∧
    (submitHandler dbEmpty reqOne).2.status ≠ 404 ∧
    submitTrace dbEmpty reqOne = [dbEmpty] :=
  submit_nonexistent_customer dbEmpty reqOne (by decide)

/-- C3 (code behavior): a successful submit is two separate writes with no
transaction; in the concrete run below the trace of store states has length
three, and in the middle state the assessment row is already persisted while
the owning customer's lastAccessed is still untouched — the partial state
the claim says is never observable. -/
theorem submit_intermediate_state_not_atomic :
    (submitTrace dbOne reqOne).length = 3 ∧
    ((submitTrace dbOne reqOne).get? 1).map
      (fun d => (d.assessments.length, d.customers.map Customer.lastAccessed)) =
      some (1, [none]) ∧
    ((submitTrace dbOne reqOne).get? 2).map
      (fun d => (d.assessments.length, d.customers.map Customer.lastAccessed)) =
      some (1, [some 10]) := by
  refine ⟨rfl, rfl, rfl⟩

/-- C7: a document upload with a missing file payload or a missing
assessment id is rejected with the 400 InvalidInput response before any
write: the store comes back unchanged, so no Document row and no Message row
is created. -/
theorem upload_missing_input_rejected (db : DB) (file : Option UploadedFile)
    (assessmentId : Option Nat) (docType : Option String)
    (h : file = none ∨ assessmentId = none) :
    uploadHandler db file assessmentId docType =
      (db, { status := 400, body := .errMsg "No file or assessment ID provided." }) := by
  rcases h with h | h
  · subst h; cases assessmentId <;> rfl
  · subst h; cases file <;> rfl

/-- Witness for C7: missing file against the concrete store with an
assessment. -/
theorem upload_missing_input_rejected_witness :
    uploadHandler dbAssess none (some 1) (some "PAN") =
      (dbAssess, { status := 400, body := .errMsg "No file or assessment ID provided." }) :=
  upload_missing_input_rejected dbAssess none (some 1) (some "PAN") (Or.inl rfl)

/-- C10: updating the status of an existing assessment answers 200 and
rewrites exactly the status column of the identified row — every other field
of that row, every other assessment row, and all customer, message and
document rows are unchanged — and the new status string is stored verbatim
for an arbitrary string, with no validation against the three-value status
enumeration. -/
theorem updateStatus_frame (db : DB) (aid : Nat) (newStatus : String)
    (h : db.assessments.any (fun x => x.id == aid) = true) :
    (updateStatusHandler db aid newStatus).2.status = 200 ∧
    (updateStatusHandler db aid newStatus).1.customers = db.customers ∧
    (updateStatusHandler db aid newStatus).1.messages = db.messages ∧
    (updateStatusHandler db aid newStatus).1.documents = db.documents ∧
    (updateStatusHandler db aid newStatus).1.assessments =
      db.assessments.map (fun x => if x.id == aid then { x with status := newStatus } else x) := by
  have hfind : (db.assessments.find? (fun x => x.id == aid)).isSome := by
    rw [List.find?_isSome]
    rcases List.any_eq_true.mp h with ⟨x, hx, hpx⟩
    exact ⟨x, hx, hpx⟩
  cases hf : db.assessments.find? (fun x => x.id == aid) with
  | none => rw [hf] at hfind; simp at hfind
  | some a =>
    refine ⟨?_, ?_, ?_, ?_, ?_⟩ <;> simp [updateStatusHandler, assessmentUpdateStatus, hf]

/-- Witness for C10: overwriting the status of the concrete assessment with
a string outside the three-value enumeration. -/
theorem updateStatus_frame_witness :
    (updateStatusHandler dbAssess 1 "Totally Bogus").2.status = 200 ∧
    (updateStatusHandler dbAssess 1 "Totally Bogus").1.customers = dbAssess.customers ∧
    (updateStatusHandler dbAssess 1 "Totally Bogus").1.messages = dbAssess.messages ∧
    (updateStatusHandler dbAssess 1 "Totally Bogus").1.documents = dbAssess.documents ∧
    (updateStatusHandler dbAssess 1 "Totally Bogus").1.assessments =
      dbAssess.assessments.map
        (fun x => if x.id == 1 then { x with status := "Totally Bogus" } else x) :=
  updateStatus_frame dbAssess 1 "Totally Bogus" (by decide)

/-- C6: whenever POST /api/documents/upload answers 201, the final store
extends the original one with exactly the new Document row and a Message row
with sender System attached to the same assessment, whose text embeds the
original filename and the document type; the message is produced on the same
success path as the document, never independently skipped. -/
theorem upload_creates_system_message (db : DB) (f : UploadedFile) (aid : Nat)
    (docType : Option String)
    (hok : (uploadHandler db (some f) (some aid) docType).2.status = 201) :
    (uploadHandler db (some f) (some aid) docType).1.documents = db.documents ++
      [{ id := db.nextDocumentId, fileName := f.filename, originalName := f.originalname,
         filePath := "uploads/" ++ f.filename, assessmentId := aid, docType := docType,
         uploadDate := db.now }] ∧
    (uploadHandler db (some f) (some aid) docType).1.messages = db.messages ++
      [{ id := db.nextMessageId, assessmentId := aid, sender := "System",
         text := "Customer uploaded a document: \"" ++ f.originalname ++ "\" ("
           ++ jsOrDefault docType "unspecified type" ++ ").",
         createdAt := db.now }] := by
  by_cases hA : db.assessments.any (fun a => a.id == aid) = true
  · constructor <;> simp [uploadHandler, documentCreate, messageCreate, hA]
  · exfalso
    have hA2 : db.assessments.any (fun a => a.id == aid) = false := by
      simpa using hA
    rw [show uploadHandler db (some f) (some aid) docType =
        (db, { status := 500, body := .errMsg "Failed to upload document." }) from by
      simp [uploadHandler, documentCreate, hA2]] at hok
    simp at hok

/-- Witness for C6: a concrete upload against the store with assessment 1. -/
theorem upload_creates_system_message_witness :
    (uploadHandler dbAssess (some { filename := "document-7-xyz.pdf", originalname := "pan.pdf" })
        (some 1) (some "PAN")).1.messages = dbAssess.messages ++
      [{ id := dbAssess.nextMessageId, assessmentId := 1, sender := "System",
         text := "Customer uploaded a document: \"" ++ "pan.pdf" ++ "\" ("
           ++ jsOrDefault (some "PAN") "unspecified type" ++ ").",
         createdAt := dbAssess.now }] :=
  (upload_creates_system_message dbAssess
    { filename := "document-7-xyz.pdf", originalname := "pan.pdf" } 1 (some "PAN") rfl).2

/-- C8: the message read returns exactly the messages of the requested
assessment (a permutation of the table filter), in non-decreasing
creation-time order, for an arbitrary store (hence for any interleaving of
plain, document-request and upload-generated messages); when none exist it
returns the empty list inside a 200 response, not null and not an error. -/
theorem getMessages_sorted_complete (db : DB) (aid : Nat) :
    List.Perm (getMessages db aid) (db.messages.filter (fun m => m.assessmentId == aid)) ∧
    List.Sorted msgLe (getMessages db aid) ∧
    (db.messages.filter (fun m => m.assessmentId == aid) = [] → getMessages db aid = []) ∧
    getMessagesHandler db aid = { status := 200, body := .messagesOk (getMessages db aid) } := by
  refine ⟨List.perm_insertionSort msgLe _, List.sorted_insertionSort msgLe _, ?_, rfl⟩
  intro h
  simp [getMessages, h]

/-- Witness for C8: the store with no messages yields the empty list. -/
theorem getMessages_sorted_complete_witness :
    getMessages dbOne 7 = [] :=
  (getMessages_sorted_complete dbOne 7).2.2.1 rfl

/-- The catch-all 500 message for the question generation context is the
"ing"-rewritten context string. -/
theorem failedMsg_eq :
    "Failed to " ++ jsReplaceAll "generating dynamic questions" "ing" "e" =
      "Failed to generate dynamic questions" := rfl

/-- C9: a failure of the external completion service is classified into
exactly one of two stable, distinguishable kinds — the 429 rate-limit
response exactly when the error signals quota/throttling (status 429 or a
429 in its text), the generic 500 response otherwise — both are reported to
the caller, and the outcome depends only on the first (single) upstream
call: the component never retries. -/
theorem generateQuestions_error_classification :
    (∀ (u : Nat → UpstreamResult) (e : JsError), u 0 = .err e →
      (generateQuestions u = rateLimitedResp ∨ generateQuestions u = questionsFailedResp) ∧
      (generateQuestions u = rateLimitedResp ↔ isRateLimitError e = true)) ∧
    rateLimitedResp ≠ questionsFailedResp ∧
    (∀ u1 u2 : Nat → UpstreamResult, u1 0 = u2 0 →
      generateQuestions u1 = generateQuestions u2) := by
  have hne : rateLimitedResp ≠ questionsFailedResp := by
    intro h
    exact absurd (congrArg HttpResponse.status h) (by decide)
  refine ⟨?_, hne, ?_⟩
  · intro u e hu
    cases hr : isRateLimitError e with
    | true =>
      have : generateQuestions u = rateLimitedResp := by
        simp [generateQuestions, hu, handleGeminiError, hr, rateLimitedResp]
      exact ⟨Or.inl this, by simp [this]⟩
    | false =>
      have : generateQuestions u = questionsFailedResp := by
        simp [generateQuestions, hu, handleGeminiError, hr, questionsFailedResp, failedMsg_eq]
      refine ⟨Or.inr this, ?_⟩
      rw [this]
      simp [hne.symm]
  · intro u1 u2 h
    unfold generateQuestions
    rw [h]

/-- Witness for C9: a concrete quota error and a concrete generic error. -/
theorem generateQuestions_error_classification_witness :
    (generateQuestions (fun _ => .err { status := some 429, message := "quota exceeded" }) = rateLimitedResp ∨
     generateQuestions (fun _ => .err { status := some 429, message := "quota exceeded" }) = questionsFailedResp) ∧
    (generateQuestions (fun _ => .err { status := none, message := "socket hang up" }) = rateLimitedResp ∨
     generateQuestions (fun _ => .err { status := none, message := "socket hang up" }) = questionsFailedResp) :=
  ⟨(generateQuestions_error_classification.1 _ _ rfl).1,
   (generateQuestions_error_classification.1 _ _ rfl).1⟩

/-- A found index is inside the list. -/
theorem jsIndexOfAux_lt_length {c : Char} :
    ∀ {l : List Char} {i : Nat}, jsIndexOfAux c l = some i → i < l.length := by
  intro l
  induction l with
  | nil => intro i h; simp [jsIndexOfAux] at h
  | cons x xs ih =>
    intro i h
    by_cases hx : x = c
    · simp [jsIndexOfAux, hx] at h
      simp only [List.length_cons]
      omega
    · simp [jsIndexOfAux, hx] at h
      obtain ⟨a, ha, hai⟩ := h
      have := ih ha
      simp only [List.length_cons]
      omega

/-- A found last index is inside the string. -/
theorem jsLastIndexOf_lt_length {s : String} {c : Char} {j : Nat}
    (h : jsLastIndexOf s c = some j) : j < s.data.length := by
  unfold jsLastIndexOf at h
  cases hr : jsIndexOfAux c s.data.reverse with
  | none => rw [hr] at h; simp at h
  | some i =>
    rw [hr] at h
    simp only [Option.some.injEq] at h
    have hi := jsIndexOfAux_lt_length hr
    rw [List.length_reverse] at hi
    omega

/-- C4 counterexample: on the input whose last closing bracket precedes its
first opening bracket, the code returns the swapped-endpoints substring
(JavaScript substring semantics), which differs from the claimed inclusive
substring from the first opening to the last closing bracket. -/
theorem extractJsonArray_swap_cex :
    extractJsonArray "]x[" = .ok "x" ∧
    specExtractJsonArray "]x[" = some "" ∧
    ("x" : String) ≠ "" := by
  refine ⟨rfl, rfl, by decide⟩

/-- C4 (amended): when the first opening bracket is at or before the last
closing bracket, extractJsonArray returns exactly the inclusive substring
between them; when either bracket is absent it fails with the
malformed-response error and the whole endpoint answers the same generic 500
kind with no uncaught fault; and when the extracted text does not parse as
JSON the whole endpoint fails with that same kind, returning no
partially-parsed content. -/
theorem extractJsonArray_amended (raw : String) (u : Nat → UpstreamResult) :
    ((jsIndexOf raw '[' = none ∨ jsLastIndexOf raw ']' = none) →
      extractJsonArray raw =
        .error { status := none, message := "AI response did not contain a valid JSON array." } ∧
      generateQuestions (fun _ => .ok raw) = questionsFailedResp) ∧
    (∀ i j, jsIndexOf raw '[' = some i → jsLastIndexOf raw ']' = some j → i ≤ j →
      extractJsonArray raw = .ok (String.mk ((raw.data.drop i).take (j + 1 - i)))) ∧
    (∀ cleanedText, u 0 = .ok raw → extractJsonArray raw = .ok cleanedText →
      jsonParse cleanedText = none → generateQuestions u = questionsFailedResp) := by
  have hrl1 : isRateLimitError
      { status := none, message := "AI response did not contain a valid JSON array." } = false := by
    decide
  have hrl2 : isRateLimitError
      { status := none, message := "Unexpected token in JSON" } = false := by
    decide
  refine ⟨?_, ?_, ?_⟩
  · intro h
    have hext : extractJsonArray raw =
        .error { status := none, message := "AI response did not contain a valid JSON array." } := by
      rcases h with h | h <;> simp [extractJsonArray, h] <;>
        cases h2 : jsIndexOf raw '[' <;> simp
    refine ⟨hext, ?_⟩
    simp [generateQuestions, hext, handleGeminiError, hrl1, questionsFailedResp, failedMsg_eq]
  · intro i j hi hj hij
    have hi2 : i < raw.data.length := jsIndexOfAux_lt_length hi
    have hj2 : j < raw.data.length := jsLastIndexOf_lt_length hj
    have e1 : min (min i raw.data.length) (min (j + 1) raw.data.length) = i := by omega
    have e2 : max (min i raw.data.length) (min (j + 1) raw.data.length) = j + 1 := by omega
    simp only [extractJsonArray, hi, hj, jsSubstring, e1, e2]
  · intro ct hu hext hparse
    simp [generateQuestions, hu, hext, hparse, handleGeminiError, hrl2,
      questionsFailedResp, failedMsg_eq]

/-- Witness for C4 at concrete inputs: a normal extraction, a bracketless
input, and an upstream response whose extracted text is not JSON. -/
theorem extractJsonArray_amended_witness :
    extractJsonArray "ab[1]c" = .ok (String.mk ((("ab[1]c" : String).data.drop 2).take (4 + 1 - 2))) ∧
    extractJsonArray "no brackets" =
      .error { status := none, message := "AI response did not contain a valid JSON array." } ∧
    generateQuestions (fun _ => .ok "[not json]") = questionsFailedResp :=
  ⟨(extractJsonArray_amended "ab[1]c" (fun _ => .ok "ab[1]c")).2.1 2 4 rfl rfl (by decide),
   ((extractJsonArray_amended "no brackets" (fun _ => .ok "no brackets")).1 (Or.inl rfl)).1,
   (extractJsonArray_amended "[not json]" (fun _ => .ok "[not json]")).2.2 "[not json]" rfl rfl rfl⟩

/-- On a list of objects, the forEach renumbering throws no TypeError and
rewrites element i to the field write with index n + i. -/
theorem renumberFrom_obj_get? :
    ∀ (xs : List Json) (n : Nat), (∀ x ∈ xs, ∃ fs, x = Json.obj fs) →
      ∃ ys, renumberFrom n xs = some ys ∧
        ∀ i, ys.get? i =
          (xs.get? i).map
            (fun q => setField q "id" (.str ("dynamic_question_" ++ toString (n + i + 1)))) := by
  intro xs
  induction xs with
  | nil => intro n _; exact ⟨[], rfl, by intro i; simp⟩
  | cons q qs ih =>
    intro n h
    obtain ⟨fs, hq⟩ := h q (by simp)
    obtain ⟨ys, hys, hget⟩ := ih (n + 1) (fun x hx => h x (by simp [hx]))
    subst hq
    refine ⟨setField (.obj fs) "id" (.str ("dynamic_question_" ++ toString (n + 1))) :: ys,
      ?_, ?_⟩
    · simp [renumberFrom, jsSetId, hys]
    · intro i
      cases i with
      | zero => simp
      | succ k =>
        simp only [List.get?_cons_succ, hget k]
        have : n + 1 + k + 1 = n + (k + 1) + 1 := by omega
        rw [this]

/-- find? over a map that rewrites exactly the matching keys. -/
theorem find?_map_keyReplace (k : String) (v : Json) :
    ∀ fs : List (String × Json),
      (fs.map (fun p => if p.1 == k then (k, v) else p)).find? (fun p => p.1 == k) =
        (fs.find? (fun p => p.1 == k)).map (fun _ => (k, v)) := by
  intro fs
  induction fs with
  | nil => rfl
  | cons q qs ih =>
    cases hq : (q.1 == k) with
    | true =>
      have hif : (if q.1 == k then (k, v) else q) = (k, v) := by simp [hq]
      rw [List.map_cons, hif]
      rw [List.find?_cons_of_pos (p := fun r : String × Json => r.1 == k) _ (by simp)]
      rw [List.find?_cons_of_pos (p := fun r : String × Json => r.1 == k) _ hq]
      rfl
    | false =>
      have hif : (if q.1 == k then (k, v) else q) = q := by simp [hq]
      rw [List.map_cons, hif]
      rw [List.find?_cons_of_neg (p := fun r : String × Json => r.1 == k) _ (by simp [hq])]
      rw [List.find?_cons_of_neg (p := fun r : String × Json => r.1 == k) _ (by simp [hq])]
      exact ih

/-- find? over an append whose first part has no match. -/
theorem find?_append_of_none {α : Type} (p : α → Bool) :
    ∀ (l1 l2 : List α), (∀ x ∈ l1, p x = false) →
      (l1 ++ l2).find? p = l2.find? p := by
  intro l1
  induction l1 with
  | nil => intro l2 _; simp
  | cons a l ih =>
    intro l2 h
    have ha : p a = false := h a (by simp)
    rw [List.cons_append, List.find?_cons_of_neg _ (by simp [ha])]
    exact ih l2 (fun x hx => h x (by simp [hx]))

/-- Property assignment then read: after q.id = v on an object, reading id
yields v. -/
theorem getField_setField_obj (fs : List (String × Json)) (k : String) (v : Json) :
    getField (setField (Json.obj fs) k v) k = some v := by
  unfold setField getField
  cases h : fs.any (fun p => p.1 == k) with
  | true =>
    simp only [h, if_true]
    rw [find?_map_keyReplace]
    rcases List.any_eq_true.mp h with ⟨x, hx, hpx⟩
    cases hf : fs.find? (fun p => p.1 == k) with
    | none =>
      have := List.find?_eq_none.mp hf x hx
      rw [hpx] at this
      simp at this
    | some w => simp
  | false =>
    simp only [h, if_false, Bool.false_eq_true]
    rw [find?_append_of_none _ fs [(k, v)] (by
      intro x hx
      have := List.any_eq_false.mp h x hx
      simpa using this)]
    simp

/-- C5: whenever the upstream text sanitizes and parses to a question array
and the forEach renumbering runs to completion (as it always does on an
array of question objects — a null element instead throws and yields the
generic 500), the endpoint answers 200 with the renumbered array, and the
item at every position i holding a question object — whatever id value the
external service produced for it — carries id dynamic_question_(i+1). -/
theorem generateQuestions_renumbers_ids :
    (∀ (u : Nat → UpstreamResult) (text cleanedText : String) (xs ys : List Json),
      u 0 = .ok text → extractJsonArray text = .ok cleanedText →
      jsonParse cleanedText = some (.arr xs) → renumberIds xs = some ys →
      generateQuestions u = { status := 200, body := .questionsOk (.arr ys) }) ∧
    (∀ xs : List Json, (∀ x ∈ xs, ∃ fs, x = Json.obj fs) →
      ∃ ys, renumberIds xs = some ys ∧
        ∀ i q, xs.get? i = some q →
          ∃ q2, ys.get? i = some q2 ∧
            getField q2 "id" = some (.str ("dynamic_question_" ++ toString (i + 1)))) := by
  constructor
  · intro u text ct xs ys hu hext hparse hren
    simp [generateQuestions, hu, hext, hparse, hren]
  · intro xs hobj
    obtain ⟨ys, hys, hget⟩ := renumberFrom_obj_get? xs 0 hobj
    refine ⟨ys, hys, ?_⟩
    intro i q hq
    have h := hget i
    rw [hq] at h
    simp only [Nat.zero_add] at h
    obtain ⟨fs, hfs⟩ := hobj q (List.get?_mem hq)
    subst hfs
    exact ⟨_, h, getField_setField_obj fs "id" (.str ("dynamic_question_" ++ toString (i + 1)))⟩

/-- Witness for C5: a concrete array whose two question objects carry alien
ids, and a concrete end-to-end 200 run. -/
theorem generateQuestions_renumbers_ids_witness :
    (∃ ys, renumberIds [Json.obj [("id", Json.str "weird")], Json.obj []] = some ys ∧
      ∀ i q, [Json.obj [("id", Json.str "weird")], Json.obj []].get? i = some q →
        ∃ q2, ys.get? i = some q2 ∧
          getField q2 "id" = some (.str ("dynamic_question_" ++ toString (i + 1)))) ∧
    generateQuestions (fun _ => .ok "x [\"a\"] y") =
      { status := 200, body := .questionsOk (.arr [Json.str "a"]) } :=
  ⟨generateQuestions_renumbers_ids.2 [Json.obj [("id", Json.str "weird")], Json.obj []] (by
      intro x hx
      simp only [List.mem_cons, List.not_mem_nil, or_false] at hx
      rcases hx with hx | hx
      · exact ⟨_, hx⟩
      · exact ⟨_, hx⟩),
   generateQuestions_renumbers_ids.1 (fun _ => .ok "x [\"a\"] y") "x [\"a\"] y" "[\"a\"]"
      [Json.str "a"] [Json.str "a"] rfl rfl rfl rfl⟩
